import Mathlib

/-!
# Verification of the Web-Scrapers request/extraction core

Shallow embedding of `src/amazon_scraper/amazon_scraper.py` (class
`AmazonScraper`): the resilient fetch loop `make_request`, the
multi-strategy listing-URL extraction `_extract_product_urls_comprehensive`
with its URL normalizer `_clean_product_url`, and the per-field record
extraction `extract_product_details`.

Modelling conventions:
* Python strings are Lean `String`s; `len` is `String.length`,
  `str.lower()` maps `Char.toLower` over the characters, and the Python
  `in` substring test is `strContains` below.
* The HTTP layer (`self.session.get`) is an environment function from the
  attempt index and the chosen proxy to either a response
  (status code + body text) or a raised exception kind; the exception
  kinds caught by the code (`ConnectionError`, `Timeout`, `ProxyError`)
  are distinguished from every other exception (`other`).
* `random.choice` over a non-empty list is modelled by an environment
  supplied index taken modulo the list length; `random.uniform` sleeps are
  recorded symbolically in an event trace (the numeric backoff formula of
  line 367 is `backoff_time` below).
* BeautifulSoup documents are abstracted by structures that record, for
  each selector/attribute query the code performs, the result the library
  would return (element texts, attribute values, hrefs).  `urljoin`
  results and parsed URLs are represented by the structured `Url` record
  (the fields of Python's `urlparse` six-tuple).
-/

/-- Python `needle in haystack` substring test on strings. -/
def strContains (s pat : String) : Bool :=
  s.toList.tails.any (fun t => pat.toList.isPrefixOf t)

/-- Python `s.lower()` restricted to ASCII case mapping. -/
def lowerStr (s : String) : String :=
  String.mk (s.toList.map Char.toLower)

/-! ## The fetch model (`AmazonScraper.make_request`, lines 280-372) -/

/-- A proxy pool member: `none` is the direct connection, `some h` a
`http://ip:port` proxy URL (field `self.proxies`). -/
abbrev Proxy := Option String

/-- Exception kinds the HTTP request can raise.  `connectionError`,
`timeout` and `proxyError` are the ones named in the `except` clause on
line 361; `other` stands for any exception outside that tuple. -/
inductive ExnKind where
  | connectionError
  | timeout
  | proxyError
  | other
deriving DecidableEq, Repr

/-- The behaviour of one `session.get` call: either a response with a
status code and a body text, or a raised exception. -/
inductive AttemptResult where
  | exn (k : ExnKind)
  | resp (status : Nat) (body : String)
deriving DecidableEq, Repr

/-- Environment for one `make_request` call: the response behaviour per
attempt index and chosen proxy, and the random index used to model
`random.choice` on each attempt. -/
structure Env where
  attempts : Nat → Proxy → AttemptResult
  pickIdx : Nat → Nat

/-- Observable effects of the fetch loop, in order of occurrence. -/
inductive Event where
  /-- the pre-request random delay of line 303 -/
  | delayPre
  /-- the `uniform(5, 10)` cooldown slept on a proxy-pool reset (line 316) -/
  | cooldown
  /-- an HTTP request issued through the given proxy (line 324) -/
  | request (proxy : Proxy)
  /-- the `uniform(10, 15)` delay slept after an HTTP 202 (line 337) -/
  | delay202
  /-- the inter-attempt backoff sleep of lines 367-369 -/
  | backoff (attempt : Nat)
deriving DecidableEq, Repr

/-- The value of the Python return tuple `(success, response_or_error)`:
`ok` is `(True, response)`, `err` is `(False, message)`. -/
inductive ReqOutcome where
  | ok (status : Nat) (body : String)
  | err (msg : String)
deriving DecidableEq, Repr

/-- Lines 310-318: filter out proxies that failed during this call; if
none remain, reset to the full pool and flag the extra cooldown; pick a
random member (`none` when even the full pool is empty).  Returns
(available list used, cooldown applied, chosen proxy). -/
def selectProxy (pool failed : List Proxy) (idx : Nat) : List Proxy × Bool × Proxy :=
  let avail0 := pool.filter (fun p => !(failed.contains p))
  if avail0.isEmpty then
    (pool, true, if pool.isEmpty then none else pool.getD (idx % pool.length) none)
  else
    (avail0, false, avail0.getD (idx % avail0.length) none)

/-- `if proxy: failed_proxies.add(proxy)` — the direct connection is never
marked failed. -/
def markFailed (proxy : Proxy) (failed : List Proxy) : List Proxy :=
  match proxy with
  | none => failed
  | some p => if failed.contains (some p) then failed else failed ++ [some p]

/-- Result of one iteration of the attempt loop body: return from the
function, propagate an uncaught exception, or continue with the updated
failed-proxy set. -/
inductive StepRes where
  | done (out : ReqOutcome)
  | raised (k : ExnKind)
  | next (failed : List Proxy)
deriving DecidableEq, Repr

/-- One iteration of the `for attempt in range(retries)` body
(lines 310-369), together with the trace of events it performs. -/
def attemptStep (pool : List Proxy) (env : Env) (attempt : Nat)
    (failed : List Proxy) : StepRes × List Event :=
  let sel := selectProxy pool failed (env.pickIdx attempt)
  let pre : List Event := if sel.2.1 then [Event.cooldown] else []
  let proxy := sel.2.2
  let evs := pre ++ [Event.request proxy]
  match env.attempts attempt proxy with
  | AttemptResult.exn k =>
    if k = ExnKind.other then
      (StepRes.raised k, evs)
    else
      (StepRes.next (markFailed proxy failed), evs ++ [Event.backoff attempt])
  | AttemptResult.resp status body =>
    if status = 202 then
      (StepRes.next (markFailed proxy failed), evs ++ [Event.delay202])
    else if status = 503 || strContains (lowerStr body) "captcha" then
      (StepRes.next (markFailed proxy failed), evs)
    else if status = 200 then
      if strContains (lowerStr body) "amazon" && decide (body.length > 5000) then
        (StepRes.done (ReqOutcome.ok status body), evs)
      else
        (StepRes.next (markFailed proxy failed), evs)
    else
      (StepRes.next (markFailed proxy failed), evs ++ [Event.backoff attempt])

/-- The attempt loop of `make_request`: `fuel` attempts remain, `attempt`
is the current 0-based index, `failed` the call-local failed-proxy set.
Returns `Except.error k` when an uncaught exception of kind `k`
propagates, otherwise the Python return value, plus the event trace. -/
def attemptLoop (pool : List Proxy) (env : Env) (retries : Nat) :
    Nat → Nat → List Proxy → Except ExnKind ReqOutcome × List Event
  | 0, _, _ =>
    (Except.ok (ReqOutcome.err ("Failed after " ++ toString retries ++ " attempts")), [])
  | fuel + 1, attempt, failed =>
    match attemptStep pool env attempt failed with
    | (StepRes.done out, evs) => (Except.ok out, evs)
    | (StepRes.raised k, evs) => (Except.error k, evs)
    | (StepRes.next failed1, evs) =>
      let rest := attemptLoop pool env retries fuel (attempt + 1) failed1
      (rest.1, evs ++ rest.2)

/-- `AmazonScraper.make_request` (lines 280-372).  `canFetchUrl` is the
result of the `self.can_fetch(url)` policy-gate check on line 299. -/
def make_request (canFetchUrl : Bool) (pool : List Proxy) (env : Env)
    (retries : Nat) : Except ExnKind ReqOutcome × List Event :=
  if !canFetchUrl then
    (Except.ok (ReqOutcome.err "Blocked by robots.txt"), [])
  else
    let r := attemptLoop pool env retries retries 0 []
    (r.1, Event.delayPre :: r.2)

/-- The backoff formula of line 367, `(attempt + 1) * random.uniform(lo, hi)`,
with the jitter draw `random.uniform(lo, hi)` as an explicit parameter. -/
def backoff_time (attempt : Nat) (jitter : Rat) : Rat :=
  (attempt + 1) * jitter

/-- True when the loop body classifies this request behaviour as a
success and returns it (status 200, no captcha marker, plausible body). -/
def attemptSucceeds : AttemptResult → Bool
  | AttemptResult.exn _ => false
  | AttemptResult.resp status body =>
    status = 200 && !strContains (lowerStr body) "captcha" &&
      strContains (lowerStr body) "amazon" && decide (body.length > 5000)

/-- True when the request behaviour raises an exception outside the
caught `(ConnectionError, Timeout, ProxyError)` tuple. -/
def attemptRaisesUncaught : AttemptResult → Bool
  | AttemptResult.exn ExnKind.other => true
  | _ => false

/-! ## URL model and listing extraction
(`AmazonScraper._extract_product_urls_comprehensive`, lines 463-551,
`_extract_urls_from_card`, lines 553-579, `_clean_product_url`,
lines 581-618) -/

/-- The six components of Python's `urlparse` result.  `query` is kept in
its `parse_qs`-parsed form (key/value pairs in document order; `parse_qs`
drops pairs with an empty value, which `cleanQuery` accounts for). -/
structure Url where
  scheme : String
  netloc : String
  path : String
  params : String
  query : List (String × String)
  fragment : String
deriving DecidableEq, Repr

/-- `_clean_product_url` on an already-parsed URL: require an amazon.com
netloc and a product-identifier path, keep only the first `ref` query
parameter, drop the fragment.  The Python body is wrapped in
`try/except: return None`; the model is a total function into `Option`. -/
def clean_product_url (u : Url) : Option Url :=
  if !(strContains u.netloc "amazon.com") then
    none
  else if !(strContains u.path "/dp/" || strContains u.path "/gp/product/") then
    none
  else
    let kept := u.query.filter (fun kv => !(kv.2 = ""))
    let refVal := (kept.find? (fun kv => kv.1 = "ref")).map Prod.snd
    some { u with
      query := match refVal with
               | some v => [("ref", v)]
               | none => []
      fragment := "" }

/-- The parsed form of `f"https://www.amazon.com/dp/{asin}"` built by
strategies 3 and 4 from `BASE_URL`. -/
def dpUrl (asin : String) : Url :=
  { scheme := "https", netloc := "www.amazon.com", path := "/dp/" ++ asin,
    params := "", query := [], fragment := "" }

/-- Insert into a Python-set-modelled list without duplicating. -/
def insertUrl (u : Url) (l : List Url) : List Url :=
  if u ∈ l then l else l ++ [u]

/-- Union of two Python-set-modelled lists (`set.update`). -/
def unionUrls (l₁ l₂ : List Url) : List Url :=
  l₂.foldl (fun acc u => insertUrl u acc) l₁

/-- `[A-Z0-9]` character class of the ASIN regexes. -/
def isUpperAlnum (c : Char) : Bool :=
  c.isUpper || c.isDigit

/-- Matcher for the regexes `pre[A-Z0-9]{10}` at the head of `cs`. -/
def matchesAsinAfter (pre : String) (cs : List Char) : Bool :=
  pre.toList.isPrefixOf cs &&
    ((cs.drop pre.length).take 10).length = 10 &&
    ((cs.drop pre.length).take 10).all isUpperAlnum

/-- `re.search(pre + r'[A-Z0-9]{10}', s)` as a Boolean. -/
def searchPat (pre : String) (s : String) : Bool :=
  s.toList.tails.any (fun t => matchesAsinAfter pre t)

/-- Scan for `/dp/[A-Z0-9]{10}` with no newline consumed before the match
(the `.` of the fourth regex does not cross newlines). -/
def scanDp : List Char → Bool
  | [] => false
  | c :: cs => matchesAsinAfter "/dp/" (c :: cs) || (!(c = '\n') && scanDp cs)

/-- `re.search(r'amazon\.com.*?/dp/[A-Z0-9]{10}', s)` as a Boolean. -/
def searchAmazonDp (s : String) : Bool :=
  s.toList.tails.any (fun t =>
    "amazon.com".toList.isPrefixOf t && scanDp (t.drop "amazon.com".length))

/-- The `product_patterns` list of lines 504-509, as Boolean matchers. -/
def productPatterns : List (String → Bool) :=
  [searchPat "/dp/", searchPat "/gp/product/",
   searchPat "/exec/obidos/ASIN/", searchAmazonDp]

/-- An `<a>` element as the code consumes it: its `href` attribute (absent
for some card links) and the parsed result of `urljoin(BASE_URL, href)`. -/
structure Link where
  href : Option String
  joined : Url

/-- A product-card element: what `card.select(selector)` returns for each
of the eight `link_selectors`. -/
structure Card where
  select : String → List Link

/-- A parsed search page: what each BeautifulSoup query the code performs
returns on it. -/
structure SearchSoup where
  /-- `soup.select(selector)` for the `primary_selectors` -/
  select : String → List Card
  /-- `soup.find_all('a', href=True)` -/
  allLinks : List Link
  /-- the `data-asin` attribute values of `soup.find_all(attrs={'data-asin': True})` -/
  dataAsins : List String
  /-- `soup.get_text()` -/
  pageText : String

/-- The `primary_selectors` list of lines 477-484. -/
def primarySelectors : List String :=
  ["div[data-component-type=\"s-search-result\"]",
   "div[data-component-type=\"s-product-image\"]",
   "div.s-result-item[data-asin]",
   "div[data-asin]:not([data-asin=\"\"])",
   "div.sg-col-4-of-12.s-result-item",
   "div[data-uuid]"]

/-- The `link_selectors` list of lines 558-567. -/
def linkSelectors : List String :=
  ["h2 a", "h2 a.a-link-normal", "a[title]", "a[href*=\"/dp/\"]",
   "a[href*=\"/gp/product/\"]", ".s-image a", ".a-link-normal",
   "a.a-link-normal"]

/-- `_extract_urls_from_card` (lines 553-579): every link selector
contributes; a link is kept when its href mentions `/dp/` or
`/gp/product/` and `_clean_product_url` accepts the joined URL. -/
def extract_urls_from_card (card : Card) : List Url :=
  linkSelectors.foldl (fun acc sel =>
    (card.select sel).foldl (fun a l =>
      match l.href with
      | none => a
      | some h =>
        if !(h = "") && (strContains h "/dp/" || strContains h "/gp/product/") then
          match clean_product_url l.joined with
          | some u => insertUrl u a
          | none => a
        else a) acc) []

/-- Strategy 1 (lines 476-496): walk the primary selectors; on the first
selector returning cards, harvest card URLs and stop if any were found. -/
def strategy1Go (soup : SearchSoup) : List String → List Url → List Url
  | [], acc => acc
  | sel :: rest, acc =>
    let cards := soup.select sel
    if cards.isEmpty then
      strategy1Go soup rest acc
    else
      let acc2 := cards.foldl (fun a c => unionUrls a (extract_urls_from_card c)) acc
      if acc2.isEmpty then strategy1Go soup rest acc2 else acc2

/-- Strategy 1 entry point. -/
def strategy1 (soup : SearchSoup) : List Url :=
  strategy1Go soup primarySelectors []

/-- Strategy 2 (lines 498-520): every `<a href>` matching a product
pattern is normalized through `_clean_product_url` and collected. -/
def strategy2 (soup : SearchSoup) : List Url :=
  soup.allLinks.foldl (fun acc l =>
    let href := l.href.getD ""
    productPatterns.foldl (fun a pat =>
      if pat href then
        match clean_product_url l.joined with
        | some u => insertUrl u a
        | none => a
      else a) acc) []

/-- Strategy 3 (lines 522-533): each well-formed `data-asin` value yields
`BASE_URL/dp/{asin}`. -/
def strategy3 (soup : SearchSoup) : List Url :=
  soup.dataAsins.foldl (fun acc asin =>
    if !(asin = "") && asin.length = 10 && asin.toList.all Char.isAlphanum then
      insertUrl (dpUrl asin) acc
    else acc) []

/-- `re.findall(r'\b[A-Z0-9]{10}\b', text)`: left-to-right,
non-overlapping; `prev` is the character before the current position
(`none` at the start of the text). -/
def scanAsins : Option Char → List Char → List String
  | _, [] => []
  | prev, c :: cs =>
    let cand := (c :: cs).take 10
    let after := (c :: cs).drop 10
    let prevOk := match prev with
                  | none => true
                  | some p => !(p.isAlphanum || p = '_')
    let afterOk := match after with
                   | [] => true
                   | d :: _ => !(d.isAlphanum || d = '_')
    if prevOk && cand.length = 10 && cand.all isUpperAlnum && afterOk then
      String.mk cand :: scanAsins (some (cand.getLastD 'A')) after
    else
      scanAsins (some c) cs
termination_by _ cs => cs.length
decreasing_by
  all_goals simp_all
  omega

/-- Strategy 4 (lines 535-549): harvest word-bounded 10-character
ASIN-shaped tokens from the page text, deduplicate, keep those starting
with `B` or not all-digits. -/
def strategy4 (soup : SearchSoup) : List Url :=
  (scanAsins none soup.pageText.toList).dedup.foldl (fun acc asin =>
    if List.isPrefixOf ['B'] asin.toList
        || !(!(asin = "") && asin.toList.all Char.isDigit) then
      insertUrl (dpUrl asin) acc
    else acc) []

/-- `_extract_product_urls_comprehensive` (lines 463-551): each fallback
strategy runs only while the accumulated URL set is still empty. -/
def extract_product_urls_comprehensive (soup : SearchSoup) : List Url :=
  let u1 := strategy1 soup
  let u2 := if u1.isEmpty then strategy2 soup else u1
  let u3 := if u2.isEmpty then strategy3 soup else u2
  let u4 := if u3.isEmpty then strategy4 soup else u3
  u4

/-- Spec-side formulation for the strategy-precedence claim: the ordered
list of the four strategies' individual outputs. -/
def strategyResultsInOrder (soup : SearchSoup) : List (List Url) :=
  [strategy1 soup, strategy2 soup, strategy3 soup, strategy4 soup]

/-- Spec-side formulation: the first non-empty result in order, or the
empty set when every strategy came up empty. -/
def specFirstNonEmpty (results : List (List Url)) : List Url :=
  match results.find? (fun l => !l.isEmpty) with
  | some l => l
  | none => []

/-! ## Product record extraction
(`AmazonScraper.extract_product_details`, lines 635-790) -/

/-- JSON-ish values stored in the product record. -/
inductive JValue where
  | vnull
  | vstr (s : String)
  | vnum (q : Rat)
  | vlist (xs : List String)
  | vdict (kvs : List (String × String))
deriving DecidableEq, Repr

/-- A parsed product page: what each BeautifulSoup query of
`extract_product_details` returns on it.  An `Option` field is `none`
exactly when the selected element is absent (or, for `ratingTitle`,
lacks the `title` attribute; for `dynImageKeys`, when the
`data-a-dynamic-image` JSON is absent or fails to parse). -/
structure ProductSoup where
  /-- stripped text of `#productTitle` -/
  titleText : Option String
  /-- stripped text of `span.a-price .a-offscreen` -/
  priceOffscreen : Option String
  /-- stripped text of `#priceblock_ourprice` -/
  priceOur : Option String
  /-- stripped text of `#priceblock_dealprice` -/
  priceDeal : Option String
  /-- stripped text of `.a-price .a-offscreen` -/
  priceOffscreen2 : Option String
  /-- stripped text of `#availability` -/
  availabilityText : Option String
  /-- `title` attribute of `#acrPopover` -/
  ratingTitle : Option String
  /-- stripped text of `#acrCustomerReviewText` -/
  reviewsText : Option String
  /-- stripped text of `#productDescription` -/
  descText : Option String
  /-- stripped texts of `#feature-bullets ul li` -/
  featureTexts : List String
  /-- `(th text, td text)` of each `#productDetails_detailBullets_sections1 tr` -/
  detailRows : List (Option String × Option String)
  /-- `(bold text, next-sibling text)` of each `#detailBullets_feature_div li .a-text-bold` -/
  bulletPairs : List (String × Option String)
  /-- `(src, data-old-hires)` attributes of each `#imgTagWrapperId img, #imageBlock img` -/
  imageTags : List (Option String × Option String)
  /-- keys of the parsed `data-a-dynamic-image` JSON object -/
  dynImageKeys : Option (List String)

/-- Python `s.rstrip(':')`. -/
def rstripColons (s : String) : String :=
  String.mk ((s.toList.reverse.dropWhile (fun c => c = ':')).reverse)

/-- The literal tail of the rating regex. -/
def ratingTailChars : List Char := " out of 5 stars".toList

/-- Match `(\d+(\.\d+)?) out of 5 stars` at the head of `cs`; returns the
characters of capture group 1. -/
def matchRatingAt (cs : List Char) : Option (List Char) :=
  let ds := cs.takeWhile Char.isDigit
  let rest := cs.drop ds.length
  if ds.isEmpty then none
  else
    match rest with
    | '.' :: r2 =>
      let ds2 := r2.takeWhile Char.isDigit
      let rest2 := r2.drop ds2.length
      if !ds2.isEmpty && ratingTailChars.isPrefixOf rest2 then
        some (ds ++ '.' :: ds2)
      else if ratingTailChars.isPrefixOf rest then some ds
      else none
    | _ => if ratingTailChars.isPrefixOf rest then some ds else none

/-- Digit characters to the natural number they denote. -/
def natOfDigits (ds : List Char) : Nat :=
  ds.foldl (fun n c => n * 10 + (c.toNat - '0'.toNat)) 0

/-- Python `float()` on a `\d+(\.\d+)?` capture, as an exact rational. -/
def parseDecimal (cs : List Char) : Rat :=
  let intPart := cs.takeWhile Char.isDigit
  let rest := cs.drop intPart.length
  match rest with
  | '.' :: fr =>
    (natOfDigits intPart : Rat) + (natOfDigits fr : Rat) / ((10 : Rat) ^ fr.length)
  | _ => (natOfDigits intPart : Rat)

/-- `re.search(r'(\d+(\.\d+)?) out of 5 stars', s)` followed by
`float(match.group(1))` (lines 711-714). -/
def searchRating (s : String) : Option Rat :=
  (s.toList.tails.findSome? matchRatingAt).map parseDecimal

/-- Match `([\d,]+) ratings` at the head of `cs` (group 1). -/
def matchReviewsAt (cs : List Char) : Option (List Char) :=
  let run := cs.takeWhile (fun c => c.isDigit || c = ',')
  let rest := cs.drop run.length
  if !run.isEmpty && " ratings".toList.isPrefixOf rest then some run else none

/-- `re.search(r'([\d,]+) ratings', s)` followed by
`match.group(1).replace(',', '')` (lines 719-722). -/
def searchReviews (s : String) : Option String :=
  (s.toList.tails.findSome? matchReviewsAt).map
    (fun run => String.mk (run.filter (fun c => !(c = ','))))

/-- Python `dict[key] = value`: overwrite in place or append. -/
def dictInsert (d : List (String × String)) (k v : String) : List (String × String) :=
  if d.any (fun kv => kv.1 = k) then
    d.map (fun kv => if kv.1 = k then (k, v) else kv)
  else d ++ [(k, v)]

/-- Lines 742-760: the `details` dictionary from the specification table
rows and the detail-bullet pairs. -/
def detailsOf (soup : ProductSoup) : List (String × String) :=
  let d1 := soup.detailRows.foldl (fun d row =>
    match row.1, row.2 with
    | some h, some v => dictInsert d (rstripColons h) v
    | _, _ => d) []
  soup.bulletPairs.foldl (fun d kv =>
    match kv.2 with
    | some v => dictInsert d (rstripColons kv.1) v
    | none => d) d1

/-- Lines 765-782: the image URL list; `src` wins over `data-old-hires`
per tag, then dynamic-image JSON keys not already collected are added. -/
def imagesOf (soup : ProductSoup) : List String :=
  let base := soup.imageTags.foldl (fun acc t =>
    match t.1 with
    | some src => acc ++ [src]
    | none =>
      match t.2 with
      | some hires => acc ++ [hires]
      | none => acc) []
  match soup.dynImageKeys with
  | none => base
  | some keys => keys.foldl (fun acc k => if k ∈ acc then acc else acc ++ [k]) base

/-- Lines 687-699: the first price candidate whose element is present. -/
def firstPrice (soup : ProductSoup) : Option String :=
  (soup.priceOffscreen.orElse fun _ =>
    (soup.priceOur.orElse fun _ =>
      (soup.priceDeal.orElse fun _ => soup.priceOffscreen2)))

/-- A conditionally present record entry: `if element: product[k] = v`. -/
def optEntry (k : String) : Option JValue → List (String × JValue)
  | some v => [(k, v)]
  | none => []

/-- `AmazonScraper.extract_product_details` (lines 674-786) on a page
whose markup parsed: the record as an insertion-ordered key/value list. -/
def extract_product_details (soup : ProductSoup) (url scrapedAt : String) :
    List (String × JValue) :=
  [("url", JValue.vstr url), ("scraped_at", JValue.vstr scrapedAt)]
  ++ optEntry "title" (soup.titleText.map JValue.vstr)
  ++ [("price", match firstPrice soup with
                | some p => JValue.vstr p
                | none => JValue.vnull)]
  ++ optEntry "availability" (soup.availabilityText.map JValue.vstr)
  ++ optEntry "rating" ((soup.ratingTitle.bind searchRating).map JValue.vnum)
  ++ optEntry "reviews_count" ((soup.reviewsText.bind searchReviews).map JValue.vstr)
  ++ [("features", JValue.vlist (soup.featureTexts.filter (fun t => !(t = "")))),
      ("description", JValue.vstr (soup.descText.getD ""))]
  ++ [("details", JValue.vdict (detailsOf soup))]
  ++ [("images", JValue.vlist (imagesOf soup))]

/-- Lookup of a record key (`record[k]`), first binding wins. -/
def getKey (r : List (String × JValue)) (k : String) : Option JValue :=
  (r.find? (fun kv => kv.1 = k)).map Prod.snd

/-- Python `k in record`. -/
def hasKey (r : List (String × JValue)) (k : String) : Bool :=
  (r.find? (fun kv => kv.1 = k)).isSome

/-! ## Helper lemmas -/

theorem strContains_iff (s p : String) :
    strContains s p = true ↔ ∃ t, t <:+ s.toList ∧ p.toList <+: t := by
  simp [strContains, List.any_eq_true, List.mem_tails, List.isPrefixOf_iff_prefix]

theorem getD_mem_of_lt {α : Type} (l : List α) (n : Nat) (d : α)
    (h : n < l.length) : l.getD n d ∈ l := by
  induction l generalizing n with
  | nil => simp at h
  | cons a t ih =>
    cases n with
    | zero => simp [List.getD]
    | succ m =>
      simp only [List.getD_cons_succ]
      exact List.mem_cons_of_mem a (ih m (by simpa using h))

theorem mem_foldl_of_insert {α β : Type} (P : β → Prop) (f : List β → α → List β)
    (l : List α)
    (hf : ∀ acc x, x ∈ l → ∀ b, b ∈ f acc x → b ∈ acc ∨ P b) :
    ∀ (acc : List β) (b : β), b ∈ l.foldl f acc → b ∈ acc ∨ P b := by
  induction l with
  | nil => intro acc b hb; exact Or.inl hb
  | cons x xs ih =>
    intro acc b hb
    rcases ih (fun a y hy => hf a y (List.mem_cons_of_mem x hy)) (f acc x) b hb with h | h
    · exact hf acc x (List.mem_cons_self x xs) b h
    · exact Or.inr h

theorem mem_insertUrl {u b : Url} {l : List Url} (h : b ∈ insertUrl u l) :
    b = u ∨ b ∈ l := by
  unfold insertUrl at h
  split at h
  · exact Or.inr h
  · rcases List.mem_append.mp h with h1 | h1
    · exact Or.inr h1
    · simp at h1; exact Or.inl h1

theorem mem_unionUrls {b : Url} {l₁ l₂ : List Url} (h : b ∈ unionUrls l₁ l₂) :
    b ∈ l₁ ∨ b ∈ l₂ := by
  rcases mem_foldl_of_insert (fun v => v ∈ l₂) (fun acc u => insertUrl u acc) l₂
    (fun acc x hx b hb => by
      rcases mem_insertUrl hb with h1 | h1
      · exact Or.inr (h1 ▸ hx)
      · exact Or.inl h1) l₁ b h with h1 | h1
  · exact Or.inl h1
  · exact Or.inr h1

/-! ## C4: fixed strategy precedence in listing extraction -/

/-- C4: the four link-extraction strategies are applied in their fixed
order, a later strategy runs only when all earlier ones produced zero
URLs, and the pipeline returns the output of the first strategy that
produced any URL (the empty set when none did). -/
theorem extraction_strategy_precedence (soup : SearchSoup) :
    extract_product_urls_comprehensive soup =
      specFirstNonEmpty (strategyResultsInOrder soup) := by
  unfold extract_product_urls_comprehensive specFirstNonEmpty strategyResultsInOrder
  cases h1 : (strategy1 soup).isEmpty <;>
  cases h2 : (strategy2 soup).isEmpty <;>
  cases h3 : (strategy3 soup).isEmpty <;>
  cases h4 : (strategy4 soup).isEmpty <;>
  simp [List.find?, h1, h2, h3, h4] <;>
  exact List.isEmpty_iff.mp h4

/-! ## C7: backoff monotonicity -/

/-- C7: with the jitter draw held fixed (and non-negative, as
`random.uniform` over the non-negative delay range produces), the
backoff value `(attempt + 1) * jitter` is monotone in the attempt
index. -/
theorem backoff_time_monotone (i : Nat) (jitter : Rat) (hj : 0 ≤ jitter) :
    backoff_time i jitter ≤ backoff_time (i + 1) jitter := by
  unfold backoff_time
  have h : ((i : Rat) + 1) ≤ ((i + 1 : Nat) : Rat) + 1 := by push_cast; linarith
  exact mul_le_mul_of_nonneg_right h hj

/-- Witness for C7 at attempt 0 and jitter 7/2. -/
theorem backoff_time_monotone_witness :
    0 ≤ (7 / 2 : Rat) ∧ backoff_time 0 (7 / 2) ≤ backoff_time 1 (7 / 2) :=
  ⟨by norm_num, backoff_time_monotone 0 (7 / 2) (by norm_num)⟩

/-! ## C8: policy denial short-circuits -/

/-- C8: when the policy gate disallows the URL, `make_request` returns
`(False, "Blocked by robots.txt")` at once, with an empty effect trace:
no request is issued, no delay is slept, no attempt is made. -/
theorem make_request_policy_blocked (pool : List Proxy) (env : Env) (n : Nat) :
    make_request false pool env n =
      (Except.ok (ReqOutcome.err "Blocked by robots.txt"), []) := rfl

/-! ## C5: proxy-pool reset when every proxy has failed -/

/-- A constant-behaviour environment used by concrete instances. -/
def envConst (r : AttemptResult) : Env :=
  { attempts := fun _ _ => r, pickIdx := fun _ => 0 }

/-- The event trace of one attempt always starts with the optional reset
cooldown followed by the request through the chosen proxy. -/
theorem attemptStep_events_shape (pool : List Proxy) (env : Env) (a : Nat)
    (failed : List Proxy) :
    ∃ rest, (attemptStep pool env a failed).2 =
      (if (selectProxy pool failed (env.pickIdx a)).2.1 then [Event.cooldown] else [])
        ++ [Event.request (selectProxy pool failed (env.pickIdx a)).2.2] ++ rest := by
  simp only [attemptStep]
  cases henv : env.attempts a (selectProxy pool failed (env.pickIdx a)).2.2 with
  | exn k =>
    by_cases hk : k = ExnKind.other
    · exact ⟨[], by simp [hk]⟩
    · exact ⟨[Event.backoff a], by simp [hk]⟩
  | resp status body =>
    by_cases h1 : status = 202
    · exact ⟨[Event.delay202], by simp [h1]⟩
    · by_cases h2 : (decide (status = 503) || strContains (lowerStr body) "captcha") = true
      · exact ⟨[], by simp [h1, h2]⟩
      · by_cases h3 : status = 200
        · have hc : strContains (lowerStr body) "captcha" = false := by
            simpa [h3] using h2
          by_cases h4 :
            (strContains (lowerStr body) "amazon" && decide (body.length > 5000)) = true
          · exact ⟨[], by simp [h1, h3, h4, hc]⟩
          · exact ⟨[], by simp [h1, h3, h4, hc]⟩
        · exact ⟨[Event.backoff a], by simp [h1, h2, h3]⟩

/-- C5: when the call-local failed set covers the whole (non-empty) pool,
proxy selection resets to the full pool, still returns a member of the
pool, and the attempt applies the extra cooldown delay before issuing
the request — it neither raises nor returns no proxy. -/
theorem proxy_pool_reset (pool failed : List Proxy) (env : Env) (a : Nat)
    (hne : pool ≠ []) (hcov : ∀ p ∈ pool, p ∈ failed) :
    selectProxy pool failed (env.pickIdx a) =
      (pool, true, pool.getD (env.pickIdx a % pool.length) none) ∧
    pool.getD (env.pickIdx a % pool.length) none ∈ pool ∧
    ∃ rest, (attemptStep pool env a failed).2 =
      Event.cooldown ::
        Event.request (pool.getD (env.pickIdx a % pool.length) none) :: rest := by
  have hfil : pool.filter (fun p => !(failed.contains p)) = [] := by
    rw [List.filter_eq_nil_iff]
    intro p hp
    simp [hcov p hp]
  have hemp : pool.isEmpty = false := by
    cases pool with
    | nil => exact absurd rfl hne
    | cons x t => rfl
  have hlen : env.pickIdx a % pool.length < pool.length :=
    Nat.mod_lt _ (by cases pool with
      | nil => exact absurd rfl hne
      | cons x t => simp)
  have hsel : selectProxy pool failed (env.pickIdx a) =
      (pool, true, pool.getD (env.pickIdx a % pool.length) none) := by
    simp only [selectProxy]
    rw [hfil]
    simp [hemp]
  obtain ⟨rest, hrest⟩ := attemptStep_events_shape pool env a failed
  refine ⟨hsel, getD_mem_of_lt pool _ none hlen, ⟨rest, ?_⟩⟩
  rw [hrest, hsel]
  simp

/-- Witness for C5 on a one-proxy pool entirely marked failed. -/
theorem proxy_pool_reset_witness :
    selectProxy [some "p"] [some "p"]
        ((envConst (AttemptResult.resp 404 "")).pickIdx 0) =
      ([some "p"], true, some "p") ∧
    (some "p" : Proxy) ∈ ([some "p"] : List Proxy) ∧
    ∃ rest, (attemptStep [some "p"] (envConst (AttemptResult.resp 404 "")) 0
        [some "p"]).2 =
      Event.cooldown :: Event.request (some "p") :: rest :=
  proxy_pool_reset [some "p"] [some "p"] (envConst (AttemptResult.resp 404 "")) 0
    (by decide) (by decide)

/-! ## C6: soft-block classification (202 vs 503/captcha) -/

/-- Counterexample to C6 as stated: an attempt answered with HTTP 503
marks the proxy failed and continues, but its effect trace holds no
delay event at all — the elevated cooldown of the claim is applied only
in the 202 branch. -/
theorem soft_block_no_delay_on_503 :
    attemptStep [some "p1"] (envConst (AttemptResult.resp 503 "x")) 0 [] =
      (StepRes.next [some "p1"], [Event.request (some "p1")]) ∧
    Event.delay202 ∉ [Event.request (some "p1")] ∧
    Event.cooldown ∉ [Event.request (some "p1")] ∧
    Event.backoff 0 ∉ [Event.request (some "p1")] :=
  ⟨rfl, by decide, by decide, by decide⟩

/-- C6 amended: a 202 response marks the current proxy failed, applies
the elevated `uniform(10, 15)` cooldown, and continues; a 503 response
or a body containing "captcha" (case-insensitively) marks the proxy
failed and continues immediately, with no cooldown delay. -/
theorem soft_block_classification (pool : List Proxy) (env : Env) (a : Nat)
    (failed : List Proxy) (s : Nat) (b : String)
    (h : env.attempts a (selectProxy pool failed (env.pickIdx a)).2.2 =
      AttemptResult.resp s b) :
    (s = 202 →
      attemptStep pool env a failed =
        (StepRes.next (markFailed (selectProxy pool failed (env.pickIdx a)).2.2 failed),
          (if (selectProxy pool failed (env.pickIdx a)).2.1 then [Event.cooldown] else [])
            ++ [Event.request (selectProxy pool failed (env.pickIdx a)).2.2,
                Event.delay202])) ∧
    (¬s = 202 → (s = 503 ∨ strContains (lowerStr b) "captcha" = true) →
      attemptStep pool env a failed =
        (StepRes.next (markFailed (selectProxy pool failed (env.pickIdx a)).2.2 failed),
          (if (selectProxy pool failed (env.pickIdx a)).2.1 then [Event.cooldown] else [])
            ++ [Event.request (selectProxy pool failed (env.pickIdx a)).2.2])) := by
  constructor
  · intro hs
    subst hs
    simp [attemptStep, h]
  · intro hs hcond
    have hor : (decide (s = 503) || strContains (lowerStr b) "captcha") = true := by
      rcases hcond with h1 | h1
      · simp [h1]
      · simp [h1]
    simp [attemptStep, h, hs, hor]

/-- Witness for C6 (amended) on a concrete 202 response. -/
theorem soft_block_classification_witness :
    attemptStep [some "q"] (envConst (AttemptResult.resp 202 "")) 0 [] =
      (StepRes.next [some "q"], [Event.request (some "q"), Event.delay202]) :=
  (soft_block_classification [some "q"] (envConst (AttemptResult.resp 202 "")) 0 []
    202 "" rfl).1 rfl

/-! ## C1: success outcome requires status 200 and a plausible body -/

theorem attemptStep_done_ok (pool : List Proxy) (env : Env) (a : Nat)
    (failed : List Proxy) (s : Nat) (b : String) (evs : List Event)
    (h : attemptStep pool env a failed = (StepRes.done (ReqOutcome.ok s b), evs)) :
    s = 200 ∧ strContains (lowerStr b) "amazon" = true ∧ b.length > 5000 := by
  simp only [attemptStep] at h
  cases henv : env.attempts a (selectProxy pool failed (env.pickIdx a)).2.2 with
  | exn k =>
    rw [henv] at h
    by_cases hk : k = ExnKind.other <;> simp [hk] at h
  | resp status body =>
    rw [henv] at h
    by_cases h1 : status = 202
    · simp [h1] at h
    · by_cases h2 : (decide (status = 503) || strContains (lowerStr body) "captcha") = true
      · simp [h1, h2] at h
      · by_cases h3 : status = 200
        · by_cases h4 :
            (strContains (lowerStr body) "amazon" && decide (body.length > 5000)) = true
          · simp only [if_neg h1, if_neg h2, if_pos h3, if_pos h4,
              Prod.mk.injEq, StepRes.done.injEq, ReqOutcome.ok.injEq] at h
            obtain ⟨⟨hs, hb⟩, -⟩ := h
            subst hs
            subst hb
            rw [Bool.and_eq_true] at h4
            exact ⟨h3, h4.1, of_decide_eq_true h4.2⟩
          · simp [h1, h2, h3, h4] at h
        · simp [h1, h2, h3] at h

theorem attemptLoop_fst_ok_inv (pool : List Proxy) (env : Env) (retries : Nat) :
    ∀ (fuel a : Nat) (failed : List Proxy) (s : Nat) (b : String),
      (attemptLoop pool env retries fuel a failed).1 =
        Except.ok (ReqOutcome.ok s b) →
      s = 200 ∧ strContains (lowerStr b) "amazon" = true ∧ b.length > 5000 := by
  intro fuel
  induction fuel with
  | zero => intro a failed s b h; simp [attemptLoop] at h
  | succ m ih =>
    intro a failed s b h
    rcases hstep : attemptStep pool env a failed with ⟨res, evs⟩
    rw [attemptLoop] at h
    rw [hstep] at h
    cases res with
    | done out =>
      simp at h
      subst h
      exact attemptStep_done_ok pool env a failed s b evs hstep
    | raised k => simp at h
    | next f1 =>
      simp at h
      exact ih (a + 1) f1 s b h

/-- C1: `make_request` returns a success outcome `(True, response)` only
when the response has status 200, its body contains "amazon"
case-insensitively, and the body is longer than 5000 characters; any
response failing these checks makes the attempt loop continue rather
than return success. -/
theorem make_request_success_only_if (c : Bool) (pool : List Proxy) (env : Env)
    (n s : Nat) (b : String)
    (h : (make_request c pool env n).1 = Except.ok (ReqOutcome.ok s b)) :
    s = 200 ∧ strContains (lowerStr b) "amazon" = true ∧ b.length > 5000 := by
  cases c with
  | false => simp [make_request] at h
  | true =>
    simp only [make_request, Bool.not_true, Bool.false_eq_true, if_false] at h
    exact attemptLoop_fst_ok_inv pool env n n 0 [] s b h

/-- A 5006-character body starting with "amazon": a plausible success body. -/
def bodyW : String := String.mk ("amazon".toList ++ List.replicate 5000 'x')

theorem strContains_of_prefix (s p : String)
    (h : p.toList <+: s.toList) : strContains s p = true := by
  rw [strContains_iff]
  exact ⟨s.toList, List.suffix_refl _, h⟩

theorem strContains_eq_false_of_not_mem (s p : String) (c : Char) (rest : List Char)
    (hp : p.toList = c :: rest) (hc : c ∉ s.toList) : strContains s p = false := by
  rw [Bool.eq_false_iff]
  intro h
  rcases (strContains_iff s p).mp h with ⟨t, hts, hpre⟩
  exact hc (hts.subset (hpre.subset (hp ▸ List.mem_cons_self c rest)))

theorem lower_bodyW : lowerStr bodyW = bodyW := by
  have h1 : "amazon".toList.map Char.toLower = "amazon".toList := by decide
  have h2 : Char.toLower 'x' = 'x' := by decide
  show String.mk (("amazon".toList ++ List.replicate 5000 'x').map Char.toLower) =
    String.mk ("amazon".toList ++ List.replicate 5000 'x')
  rw [List.map_append, List.map_replicate, h1, h2]

theorem bodyW_length : bodyW.length = 5006 := by
  show ("amazon".toList ++ List.replicate 5000 'x').length = 5006
  rw [List.length_append, List.length_replicate]
  decide

theorem bodyW_amazon : strContains (lowerStr bodyW) "amazon" = true := by
  rw [lower_bodyW]
  exact strContains_of_prefix _ _ ⟨List.replicate 5000 'x', rfl⟩

theorem bodyW_no_captcha : strContains (lowerStr bodyW) "captcha" = false := by
  rw [lower_bodyW]
  apply strContains_eq_false_of_not_mem _ _ 'c' "aptcha".toList rfl
  show 'c' ∉ "amazon".toList ++ List.replicate 5000 'x'
  intro hmem
  rcases List.mem_append.mp hmem with hm | hm
  · revert hm
    decide
  · exact absurd (List.eq_of_mem_replicate hm) (by decide)

theorem make_request_bodyW :
    (make_request true [none] (envConst (AttemptResult.resp 200 bodyW)) 1).1 =
      Except.ok (ReqOutcome.ok 200 bodyW) := by
  have hsel : selectProxy [none] [] 0 = ([none], false, none) := by decide
  have hlen : 5000 < bodyW.length := by
    rw [bodyW_length]
    norm_num
  have hstep : attemptStep [none] (envConst (AttemptResult.resp 200 bodyW)) 0 [] =
      (StepRes.done (ReqOutcome.ok 200 bodyW), [Event.request none]) := by
    simp only [attemptStep, envConst, hsel]
    simp [bodyW_no_captcha, bodyW_amazon, hlen]
  simp [make_request, attemptLoop, hstep]

/-- Witness for C1 on a concrete plausible 200 response. -/
theorem make_request_success_only_if_witness :
    (200 = 200) ∧ strContains (lowerStr bodyW) "amazon" = true ∧
      bodyW.length > 5000 :=
  make_request_success_only_if true [none]
    (envConst (AttemptResult.resp 200 bodyW)) 1 200 bodyW make_request_bodyW

/-! ## C3: exception propagation out of `make_request` -/

/-- Counterexample to C3 as stated: when every attempt raises an
exception outside the caught `(ConnectionError, Timeout, ProxyError)`
tuple, `make_request` propagates it instead of returning the typed
failure pair. -/
theorem make_request_uncaught_exception_escapes :
    (make_request true [none] (envConst (AttemptResult.exn ExnKind.other)) 3).1 =
      Except.error ExnKind.other := rfl

theorem attemptStep_raised_inv (pool : List Proxy) (env : Env) (a : Nat)
    (failed : List Proxy) (k : ExnKind) (evs : List Event)
    (h : attemptStep pool env a failed = (StepRes.raised k, evs)) :
    attemptRaisesUncaught
      (env.attempts a (selectProxy pool failed (env.pickIdx a)).2.2) = true := by
  simp only [attemptStep] at h
  cases henv : env.attempts a (selectProxy pool failed (env.pickIdx a)).2.2 with
  | exn k2 =>
    rw [henv] at h
    by_cases hk : k2 = ExnKind.other
    · simp [attemptRaisesUncaught, hk]
    · simp [hk] at h
  | resp status body =>
    rw [henv] at h
    by_cases h1 : status = 202
    · simp [h1] at h
    · by_cases h2 : (decide (status = 503) || strContains (lowerStr body) "captcha") = true
      · simp [h1, h2] at h
      · by_cases h3 : status = 200
        · have hc : strContains (lowerStr body) "captcha" = false := by
            simpa [h3] using h2
          by_cases h4 :
            (strContains (lowerStr body) "amazon" && decide (body.length > 5000)) = true
          · simp [h1, h3, h4, hc] at h
          · simp [h1, h3, h4, hc] at h
        · simp [h1, h2, h3] at h

theorem attemptStep_next_of (pool : List Proxy) (env : Env) (a : Nat)
    (failed : List Proxy)
    (hr : attemptRaisesUncaught
      (env.attempts a (selectProxy pool failed (env.pickIdx a)).2.2) = false)
    (hs : attemptSucceeds
      (env.attempts a (selectProxy pool failed (env.pickIdx a)).2.2) = false) :
    ∃ f1 evs, attemptStep pool env a failed = (StepRes.next f1, evs) := by
  cases henv : env.attempts a (selectProxy pool failed (env.pickIdx a)).2.2 with
  | exn k =>
    rw [henv] at hr
    have hk : ¬(k = ExnKind.other) := by
      intro hk
      subst hk
      simp [attemptRaisesUncaught] at hr
    refine ⟨markFailed (selectProxy pool failed (env.pickIdx a)).2.2 failed,
      (if (selectProxy pool failed (env.pickIdx a)).2.1 then [Event.cooldown] else [])
        ++ [Event.request (selectProxy pool failed (env.pickIdx a)).2.2]
        ++ [Event.backoff a], ?_⟩
    simp only [attemptStep, henv, if_neg hk]
  | resp status body =>
    rw [henv] at hs
    by_cases h1 : status = 202
    · refine ⟨markFailed (selectProxy pool failed (env.pickIdx a)).2.2 failed,
        (if (selectProxy pool failed (env.pickIdx a)).2.1 then [Event.cooldown] else [])
          ++ [Event.request (selectProxy pool failed (env.pickIdx a)).2.2]
          ++ [Event.delay202], ?_⟩
      simp only [attemptStep, henv, if_pos h1]
    · by_cases h2 : (decide (status = 503) || strContains (lowerStr body) "captcha") = true
      · refine ⟨markFailed (selectProxy pool failed (env.pickIdx a)).2.2 failed,
          (if (selectProxy pool failed (env.pickIdx a)).2.1 then [Event.cooldown] else [])
            ++ [Event.request (selectProxy pool failed (env.pickIdx a)).2.2], ?_⟩
        simp only [attemptStep, henv, if_neg h1, if_pos h2]
      · by_cases h3 : status = 200
        · have hc : strContains (lowerStr body) "captcha" = false := by
            simpa [h3] using h2
          by_cases h4 :
            (strContains (lowerStr body) "amazon" && decide (body.length > 5000)) = true
          · simp [attemptSucceeds, h3, hc, h4] at hs
          · refine ⟨markFailed (selectProxy pool failed (env.pickIdx a)).2.2 failed,
              (if (selectProxy pool failed (env.pickIdx a)).2.1 then [Event.cooldown] else [])
                ++ [Event.request (selectProxy pool failed (env.pickIdx a)).2.2], ?_⟩
            simp only [attemptStep, henv, if_neg h1, if_neg h2, if_pos h3, if_neg h4]
        · refine ⟨markFailed (selectProxy pool failed (env.pickIdx a)).2.2 failed,
            (if (selectProxy pool failed (env.pickIdx a)).2.1 then [Event.cooldown] else [])
              ++ [Event.request (selectProxy pool failed (env.pickIdx a)).2.2]
              ++ [Event.backoff a], ?_⟩
          simp only [attemptStep, henv, if_neg h1, if_neg h2, if_neg h3]

theorem attemptLoop_ok_of_no_uncaught (pool : List Proxy) (env : Env) (retries : Nat)
    (hr : ∀ i p, attemptRaisesUncaught (env.attempts i p) = false) :
    ∀ (fuel a : Nat) (failed : List Proxy),
      ∃ out, (attemptLoop pool env retries fuel a failed).1 = Except.ok out := by
  intro fuel
  induction fuel with
  | zero => intro a failed; exact ⟨_, rfl⟩
  | succ m ih =>
    intro a failed
    rcases hstep : attemptStep pool env a failed with ⟨res, evs⟩
    cases res with
    | done out => exact ⟨out, by rw [attemptLoop, hstep]⟩
    | raised k =>
      have hcontra := attemptStep_raised_inv pool env a failed k evs hstep
      rw [hr] at hcontra
      exact absurd hcontra (by simp)
    | next f1 =>
      obtain ⟨out, hout⟩ := ih (a + 1) f1
      exact ⟨out, by rw [attemptLoop, hstep]; exact hout⟩

theorem attemptLoop_exhausts (pool : List Proxy) (env : Env) (retries : Nat)
    (hr : ∀ i p, attemptRaisesUncaught (env.attempts i p) = false)
    (hs : ∀ i p, attemptSucceeds (env.attempts i p) = false) :
    ∀ (fuel a : Nat) (failed : List Proxy),
      (attemptLoop pool env retries fuel a failed).1 =
        Except.ok (ReqOutcome.err ("Failed after " ++ toString retries ++ " attempts")) := by
  intro fuel
  induction fuel with
  | zero => intro a failed; rfl
  | succ m ih =>
    intro a failed
    obtain ⟨f1, evs, hstep⟩ := attemptStep_next_of pool env a failed (hr _ _) (hs _ _)
    rw [attemptLoop, hstep]
    exact ih (a + 1) f1

/-- C3 amended: as long as the underlying request only raises exceptions
of the caught kinds (`ConnectionError`, `Timeout`, `ProxyError`) or
returns responses, `make_request` never propagates an exception, and
when every attempt fails it returns the typed failure pair
`(False, "Failed after N attempts")`.  (An exception of any other kind
propagates to the caller, per the counterexample.) -/
theorem make_request_typed_outcome (pool : List Proxy) (env : Env) (n : Nat)
    (hr : ∀ i p, attemptRaisesUncaught (env.attempts i p) = false) :
    (∀ c, ∃ out, (make_request c pool env n).1 = Except.ok out) ∧
    ((∀ i p, attemptSucceeds (env.attempts i p) = false) →
      (make_request true pool env n).1 =
        Except.ok (ReqOutcome.err ("Failed after " ++ toString n ++ " attempts"))) := by
  constructor
  · intro c
    cases c with
    | false => exact ⟨_, rfl⟩
    | true =>
      obtain ⟨out, hout⟩ := attemptLoop_ok_of_no_uncaught pool env n hr n 0 []
      exact ⟨out, by simpa [make_request] using hout⟩
  · intro hs
    have hmain := attemptLoop_exhausts pool env n hr hs n 0 []
    simpa [make_request] using hmain

/-- Witness for C3 (amended): every attempt yields HTTP 404, no
exception, so the fetch exhausts and returns the typed failure. -/
theorem make_request_typed_outcome_witness :
    (make_request true [none] (envConst (AttemptResult.resp 404 "")) 2).1 =
      Except.ok (ReqOutcome.err ("Failed after " ++ toString 2 ++ " attempts")) :=
  (make_request_typed_outcome [none] (envConst (AttemptResult.resp 404 "")) 2
    (fun _ _ => rfl)).2 (fun _ _ => rfl)

/-! ## C9: every emitted listing URL has the product-URL shape -/

theorem clean_product_url_shape (v u : Url) (h : clean_product_url v = some u) :
    (strContains u.path "/dp/" = true ∨ strContains u.path "/gp/product/" = true) ∧
    strContains u.netloc "amazon.com" = true ∧ u.fragment = "" := by
  unfold clean_product_url at h
  by_cases h1 : (!strContains v.netloc "amazon.com") = true
  · rw [if_pos h1] at h
    exact absurd h (by simp)
  · rw [if_neg h1] at h
    by_cases h2 :
        (!(strContains v.path "/dp/" || strContains v.path "/gp/product/")) = true
    · rw [if_pos h2] at h
      exact absurd h (by simp)
    · rw [if_neg h2] at h
      simp only [Option.some.injEq] at h
      subst h
      have hn : strContains v.netloc "amazon.com" = true := by simpa using h1
      have hp : strContains v.path "/dp/" = true ∨
          strContains v.path "/gp/product/" = true := by
        by_cases hd : strContains v.path "/dp/" = true
        · exact Or.inl hd
        · exact Or.inr ((by simpa using h2 : strContains v.path "/dp/" = false →
            strContains v.path "/gp/product/" = true) (by simpa using hd))
      exact ⟨hp, hn, rfl⟩

theorem mem_card_link_step (a : List Url) (l : Link) (b : Url)
    (h : b ∈ (match l.href with
      | none => a
      | some hh =>
        if !(hh = "") && (strContains hh "/dp/" || strContains hh "/gp/product/") then
          match clean_product_url l.joined with
          | some u => insertUrl u a
          | none => a
        else a)) :
    b ∈ a ∨ ∃ v, clean_product_url v = some b := by
  cases hl : l.href with
  | none => rw [hl] at h; exact Or.inl h
  | some hh =>
    have h3 : b ∈ (if !(hh = "") &&
        (strContains hh "/dp/" || strContains hh "/gp/product/") then
          match clean_product_url l.joined with
          | some u2 => insertUrl u2 a
          | none => a
        else a) := by rw [hl] at h; exact h
    by_cases hcond :
        (!(hh = "") && (strContains hh "/dp/" || strContains hh "/gp/product/")) = true
    · rw [if_pos hcond] at h3
      cases hcl : clean_product_url l.joined with
      | none =>
        rw [hcl] at h3
        exact Or.inl h3
      | some u2 =>
        rw [hcl] at h3
        rcases mem_insertUrl h3 with h2 | h2
        · exact Or.inr ⟨l.joined, by rw [hcl, h2]⟩
        · exact Or.inl h2
    · rw [if_neg hcond] at h3
      exact Or.inl h3

theorem mem_extract_urls_from_card (card : Card) (u : Url)
    (h : u ∈ extract_urls_from_card card) :
    ∃ v, clean_product_url v = some u := by
  unfold extract_urls_from_card at h
  have hstep : ∀ (acc : List Url) (sel : String), sel ∈ linkSelectors → ∀ (b : Url),
      b ∈ (card.select sel).foldl (fun a l =>
        match l.href with
        | none => a
        | some hh =>
          if !(hh = "") && (strContains hh "/dp/" || strContains hh "/gp/product/") then
            match clean_product_url l.joined with
            | some u2 => insertUrl u2 a
            | none => a
          else a) acc →
      b ∈ acc ∨ ∃ v, clean_product_url v = some b := by
    intro acc sel _ b hb
    exact mem_foldl_of_insert _ _ (card.select sel)
      (fun a2 l _ b2 hb2 => mem_card_link_step a2 l b2 hb2) acc b hb
  rcases mem_foldl_of_insert _ _ linkSelectors hstep [] u h with h2 | h2
  · cases h2
  · exact h2

theorem mem_strategy1 (soup : SearchSoup) (u : Url) (h : u ∈ strategy1 soup) :
    ∃ v, clean_product_url v = some u := by
  have hcardstep : ∀ (a2 : List Url) (c : Card) (b2 : Url),
      b2 ∈ unionUrls a2 (extract_urls_from_card c) →
      b2 ∈ a2 ∨ ∃ v, clean_product_url v = some b2 := by
    intro a2 c b2 hb3
    rcases mem_unionUrls hb3 with h2 | h2
    · exact Or.inl h2
    · exact Or.inr (mem_extract_urls_from_card c b2 h2)
  have hgen : ∀ (sels : List String) (acc : List Url),
      (∀ b ∈ acc, ∃ v, clean_product_url v = some b) →
      ∀ b ∈ strategy1Go soup sels acc, ∃ v, clean_product_url v = some b := by
    intro sels
    induction sels with
    | nil => intro acc hacc b hb; exact hacc b hb
    | cons sel rest ih =>
      intro acc hacc b hb
      have hacc2 : ∀ b2 ∈ (soup.select sel).foldl
          (fun a c => unionUrls a (extract_urls_from_card c)) acc,
          ∃ v, clean_product_url v = some b2 := by
        intro b2 hb2
        rcases mem_foldl_of_insert _ _ (soup.select sel)
          (fun a2 c _ b3 hb3 => hcardstep a2 c b3 hb3) acc b2 hb2 with h2 | h2
        · exact hacc b2 h2
        · exact h2
      simp only [strategy1Go] at hb
      split at hb
      · exact ih acc hacc b hb
      · split at hb
        · exact ih _ hacc2 b hb
        · exact hacc2 b hb
  exact hgen primarySelectors [] (fun b hb => absurd hb (List.not_mem_nil b)) u h

theorem mem_strategy2 (soup : SearchSoup) (u : Url) (h : u ∈ strategy2 soup) :
    ∃ v, clean_product_url v = some u := by
  simp only [strategy2] at h
  have hinner : ∀ (acc : List Url) (l : Link) (b : Url),
      b ∈ productPatterns.foldl (fun a pat =>
        if pat (l.href.getD "") then
          match clean_product_url l.joined with
          | some u2 => insertUrl u2 a
          | none => a
        else a) acc →
      b ∈ acc ∨ ∃ v, clean_product_url v = some b := by
    intro acc l b hb
    refine mem_foldl_of_insert (fun b2 => ∃ v, clean_product_url v = some b2) _
      productPatterns (fun a2 pat _ b2 hb2 => ?_) acc b hb
    have hb3 : b2 ∈ (if pat (l.href.getD "") then
        match clean_product_url l.joined with
        | some u2 => insertUrl u2 a2
        | none => a2
      else a2) := hb2
    by_cases hcond : pat (l.href.getD "") = true
    · rw [if_pos hcond] at hb3
      cases hcl : clean_product_url l.joined with
      | none =>
        rw [hcl] at hb3
        exact Or.inl hb3
      | some u2 =>
        rw [hcl] at hb3
        rcases mem_insertUrl hb3 with h2 | h2
        · exact Or.inr ⟨l.joined, by rw [hcl, h2]⟩
        · exact Or.inl h2
    · rw [if_neg hcond] at hb3
      exact Or.inl hb3
  rcases mem_foldl_of_insert _ _ soup.allLinks
    (fun acc l _ b hb => hinner acc l b hb) [] u h with h2 | h2
  · cases h2
  · exact h2

theorem mem_strategy3 (soup : SearchSoup) (u : Url) (h : u ∈ strategy3 soup) :
    ∃ asin, u = dpUrl asin := by
  simp only [strategy3] at h
  have hstep : ∀ (acc : List Url) (asin : String), asin ∈ soup.dataAsins →
      ∀ (b : Url),
      b ∈ (if !(asin = "") && asin.length = 10 && asin.toList.all Char.isAlphanum then
            insertUrl (dpUrl asin) acc
          else acc) →
      b ∈ acc ∨ ∃ asin2, b = dpUrl asin2 := by
    intro acc asin _ b hb
    split at hb
    · rcases mem_insertUrl hb with h3 | h3
      · exact Or.inr ⟨asin, h3⟩
      · exact Or.inl h3
    · exact Or.inl hb
  rcases mem_foldl_of_insert _ _ soup.dataAsins hstep [] u h with h2 | h2
  · cases h2
  · exact h2

theorem mem_strategy4 (soup : SearchSoup) (u : Url) (h : u ∈ strategy4 soup) :
    ∃ asin, u = dpUrl asin := by
  simp only [strategy4] at h
  have hstep : ∀ (acc : List Url) (asin : String),
      asin ∈ (scanAsins none soup.pageText.toList).dedup → ∀ (b : Url),
      b ∈ (if List.isPrefixOf ['B'] asin.toList
            || !(!(asin = "") && asin.toList.all Char.isDigit) then
            insertUrl (dpUrl asin) acc
          else acc) →
      b ∈ acc ∨ ∃ asin2, b = dpUrl asin2 := by
    intro acc asin _ b hb
    split at hb
    · rcases mem_insertUrl hb with h3 | h3
      · exact Or.inr ⟨asin, h3⟩
      · exact Or.inl h3
    · exact Or.inl hb
  rcases mem_foldl_of_insert _ _ (scanAsins none soup.pageText.toList).dedup
    hstep [] u h with h2 | h2
  · cases h2
  · exact h2

theorem dpUrl_shape (asin : String) :
    (strContains (dpUrl asin).path "/dp/" = true ∨
      strContains (dpUrl asin).path "/gp/product/" = true) ∧
    strContains (dpUrl asin).netloc "amazon.com" = true ∧
    (dpUrl asin).fragment = "" := by
  refine ⟨Or.inl ?_, ?_, rfl⟩
  · apply strContains_of_prefix
    exact ⟨asin.toList, (String.data_append "/dp/" asin).symm⟩
  · show strContains "www.amazon.com" "amazon.com" = true
    decide

/-- C9: every URL emitted by the listing extraction pipeline carries a
product-identifier path segment (`/dp/` or `/gp/product/`), an
amazon.com netloc, and no fragment; non-conforming URLs are rejected by
`_clean_product_url` (modelled as the total `clean_product_url`
returning `none`) and never emitted. -/
theorem listing_urls_shape (soup : SearchSoup) (u : Url)
    (h : u ∈ extract_product_urls_comprehensive soup) :
    (strContains u.path "/dp/" = true ∨ strContains u.path "/gp/product/" = true) ∧
    strContains u.netloc "amazon.com" = true ∧ u.fragment = "" := by
  simp only [extract_product_urls_comprehensive] at h
  cases h1 : (strategy1 soup).isEmpty with
  | false =>
    simp [h1] at h
    obtain ⟨v, hv⟩ := mem_strategy1 soup u h
    exact clean_product_url_shape v u hv
  | true =>
    cases h2 : (strategy2 soup).isEmpty with
    | false =>
      simp [h1, h2] at h
      obtain ⟨v, hv⟩ := mem_strategy2 soup u h
      exact clean_product_url_shape v u hv
    | true =>
      cases h3 : (strategy3 soup).isEmpty with
      | false =>
        simp [h1, h2, h3] at h
        obtain ⟨a, ha⟩ := mem_strategy3 soup u h
        rw [ha]
        exact dpUrl_shape a
      | true =>
        simp [h1, h2, h3] at h
        obtain ⟨a, ha⟩ := mem_strategy4 soup u h
        rw [ha]
        exact dpUrl_shape a

/-- A search page whose structured selectors and links are empty but
which carries one `data-asin` attribute. -/
def soupS3 : SearchSoup :=
  { select := fun _ => [], allLinks := [], dataAsins := ["B000000000"],
    pageText := "" }

/-- Witness for C9: the ASIN-harvested URL of `soupS3` has the shape. -/
theorem listing_urls_shape_witness :
    (strContains (dpUrl "B000000000").path "/dp/" = true ∨
      strContains (dpUrl "B000000000").path "/gp/product/" = true) ∧
    strContains (dpUrl "B000000000").netloc "amazon.com" = true ∧
    (dpUrl "B000000000").fragment = "" :=
  listing_urls_shape soupS3 (dpUrl "B000000000") (by decide)

/-! ## C10 and C2: shape of the extracted product record -/

theorem getKey_nil (k : String) : getKey [] k = none := rfl

theorem getKey_cons (k k2 : String) (v : JValue) (l : List (String × JValue)) :
    getKey ((k2, v) :: l) k = if k2 = k then some v else getKey l k := by
  by_cases hk : k2 = k
  · simp [getKey, List.find?, hk]
  · simp [getKey, List.find?, hk]

theorem getKey_append (l1 l2 : List (String × JValue)) (k : String) :
    getKey (l1 ++ l2) k = (getKey l1 k).or (getKey l2 k) := by
  cases hf : l1.find? (fun kv => kv.1 = k) with
  | none => simp [getKey, List.find?_append, hf, Option.or]
  | some kv => simp [getKey, List.find?_append, hf, Option.or]

theorem getKey_optEntry (k k2 : String) (o : Option JValue) :
    getKey (optEntry k2 o) k = if k2 = k then o else none := by
  cases o with
  | none => simp [optEntry, getKey_nil]
  | some v =>
    by_cases hk : k2 = k
    · simp [optEntry, getKey, List.find?, hk]
    · simp [optEntry, getKey, List.find?, hk]

/-- C10: on any page whose markup parsed, the returned record always
carries the keys `url`, `scraped_at`, `price`, `features`,
`description`, `details` and `images`; `features` and `images` are
(possibly empty) lists, `details` a (possibly empty) dictionary, and
`price` is either a display string or null. -/
theorem extract_record_required_keys (soup : ProductSoup) (url scrapedAt : String) :
    getKey (extract_product_details soup url scrapedAt) "url" =
      some (JValue.vstr url) ∧
    getKey (extract_product_details soup url scrapedAt) "scraped_at" =
      some (JValue.vstr scrapedAt) ∧
    (getKey (extract_product_details soup url scrapedAt) "price" =
        some JValue.vnull ∨
      ∃ p, getKey (extract_product_details soup url scrapedAt) "price" =
        some (JValue.vstr p)) ∧
    getKey (extract_product_details soup url scrapedAt) "features" =
      some (JValue.vlist (soup.featureTexts.filter (fun t => !(t = "")))) ∧
    getKey (extract_product_details soup url scrapedAt) "description" =
      some (JValue.vstr (soup.descText.getD "")) ∧
    getKey (extract_product_details soup url scrapedAt) "details" =
      some (JValue.vdict (detailsOf soup)) ∧
    getKey (extract_product_details soup url scrapedAt) "images" =
      some (JValue.vlist (imagesOf soup)) := by
  refine ⟨?_, ?_, ?_, ?_, ?_, ?_, ?_⟩
  · simp [extract_product_details, getKey_append, getKey_cons, getKey_optEntry,
      getKey_nil, Option.or]
  · simp [extract_product_details, getKey_append, getKey_cons, getKey_optEntry,
      getKey_nil, Option.or]
  · rcases hfp : firstPrice soup with _ | p
    · left
      simp [extract_product_details, getKey_append, getKey_cons, getKey_optEntry,
        getKey_nil, Option.or, hfp]
    · right
      exact ⟨p, by simp [extract_product_details, getKey_append, getKey_cons,
        getKey_optEntry, getKey_nil, Option.or, hfp]⟩
  · simp [extract_product_details, getKey_append, getKey_cons, getKey_optEntry,
      getKey_nil, Option.or]
  · simp [extract_product_details, getKey_append, getKey_cons, getKey_optEntry,
      getKey_nil, Option.or]
  · simp [extract_product_details, getKey_append, getKey_cons, getKey_optEntry,
      getKey_nil, Option.or]
  · simp [extract_product_details, getKey_append, getKey_cons, getKey_optEntry,
      getKey_nil, Option.or]

/-- A parsed product page with a title element and no price candidate. -/
def soup0 : ProductSoup :=
  { titleText := some "Example Product", priceOffscreen := none, priceOur := none,
    priceDeal := none, priceOffscreen2 := none, availabilityText := none,
    ratingTitle := none, reviewsText := none, descText := none, featureTexts := [],
    detailRows := [], bulletPairs := [], imageTags := [], dynImageKeys := none }

/-- Counterexample to C2 as stated: on markup with a title and no price
candidate the record does contain a `price` key — bound to null — rather
than omitting the key (line 701 assigns `product['price'] = price`
unconditionally). -/
theorem price_key_present_counterexample :
    hasKey (extract_product_details soup0 "u" "t") "price" = true ∧
    getKey (extract_product_details soup0 "u" "t") "price" = some JValue.vnull ∧
    getKey (extract_product_details soup0 "u" "t") "title" =
      some (JValue.vstr "Example Product") := by
  refine ⟨?_, ?_, ?_⟩ <;> rfl

/-- C2 amended: for markup where a title element is present and no price
candidate matches, the record has a `title` key with the title text and a
`price` key bound to null (the price field is always present; it is not
omitted). -/
theorem title_present_price_null (soup : ProductSoup) (url ts t : String)
    (ht : soup.titleText = some t)
    (h1 : soup.priceOffscreen = none) (h2 : soup.priceOur = none)
    (h3 : soup.priceDeal = none) (h4 : soup.priceOffscreen2 = none) :
    getKey (extract_product_details soup url ts) "title" = some (JValue.vstr t) ∧
    getKey (extract_product_details soup url ts) "price" = some JValue.vnull := by
  have hfp : firstPrice soup = none := by
    simp [firstPrice, h1, h2, h3, h4]
  constructor
  · simp [extract_product_details, getKey_append, getKey_cons, getKey_optEntry,
      getKey_nil, Option.or, ht]
  · simp [extract_product_details, getKey_append, getKey_cons, getKey_optEntry,
      getKey_nil, Option.or, ht, hfp]

/-- Witness for C2 (amended) on the concrete page `soup0`. -/
theorem title_present_price_null_witness :
    getKey (extract_product_details soup0 "u" "t") "title" =
      some (JValue.vstr "Example Product") ∧
    getKey (extract_product_details soup0 "u" "t") "price" = some JValue.vnull :=
  title_present_price_null soup0 "u" "t" "Example Product" rfl rfl rfl rfl rfl
